import Mathlib

/-!
Shallow embedding of the ambleai-webapp core logic:
place-verification confidence scoring (`lib/places-verification.js`),
batch verification, route re-sequencing and maps-link generation
(`lib/routes-optimization.js`), together with proofs of the specified
properties.

Strings are modelled as `List Char`; JavaScript floating-point scores are
modelled as exact rationals `ℚ`; fallible values as `Option`.
-/

namespace Amble

/-- Dynamic-programming matrix of `calculateStringSimilarity`
(lib/places-verification.js lines 239-262).  `levMatrix s1 s2 i j` is the
value `matrix[i][j]`: rows are indexed by prefixes of `str2`, columns by
prefixes of `str1`, exactly as in the source (`matrix[i] = [i]`,
`matrix[0][j] = j`, inner cell compares `str2.charAt(i-1)` with
`str1.charAt(j-1)` and takes the min of substitution, insertion and
deletion, each cost 1). -/
def levMatrix (s1 s2 : List Char) : Nat → Nat → Nat
  | i, 0 => i
  | 0, j + 1 => j + 1
  | i + 1, j + 1 =>
    if s2.getD i ' ' = s1.getD j ' ' then
      levMatrix s1 s2 i j
    else
      min (levMatrix s1 s2 i j + 1)
        (min (levMatrix s1 s2 (i + 1) j + 1) (levMatrix s1 s2 i (j + 1) + 1))

/-- Classic unit-cost Levenshtein edit distance (substitution, insertion and
deletion each cost 1), written as the textbook structural recursion.  This is
the specification-side definition against which the source's DP matrix is
compared. -/
def levenshteinSpec (a b : List Char) : Nat :=
  match a, b with
  | [], ys => ys.length
  | _ :: xs, [] => xs.length + 1
  | x :: xs, y :: ys =>
    if x = y then levenshteinSpec xs ys
    else 1 + min (levenshteinSpec xs ys)
        (min (levenshteinSpec xs (y :: ys)) (levenshteinSpec (x :: xs) ys))
termination_by a.length + b.length
decreasing_by all_goals simp_arith

/-- Model of `calculateStringSimilarity(str1, str2)`
(lib/places-verification.js lines 235-267): returns 1 on equal strings, 0
when either is empty, and otherwise `1 - distance / max(len1, len2)` where
`distance = matrix[str2.length][str1.length]`. -/
def calculateStringSimilarity (str1 str2 : List Char) : ℚ :=
  if str1 = str2 then 1
  else if str1.length = 0 ∨ str2.length = 0 then 0
  else
    1 - (levMatrix str1 str2 str2.length str1.length : ℚ) /
      (max str1.length str2.length : ℕ)

theorem levenshteinSpec_nil_left (b : List Char) :
    levenshteinSpec [] b = b.length := by
  rw [levenshteinSpec]

theorem levenshteinSpec_nil_right (a : List Char) :
    levenshteinSpec a [] = a.length := by
  cases a with
  | nil => rw [levenshteinSpec]
  | cons x xs => rw [levenshteinSpec]; simp

theorem levenshteinSpec_cons_cons (x y : Char) (xs ys : List Char) :
    levenshteinSpec (x :: xs) (y :: ys) =
      if x = y then levenshteinSpec xs ys
      else 1 + min (levenshteinSpec xs ys)
          (min (levenshteinSpec xs (y :: ys)) (levenshteinSpec (x :: xs) ys)) := by
  rw [levenshteinSpec]

/-- Witnesses that the first string can be turned into the second using `n`
unit-cost edit operations (keeping a character is free; substituting,
deleting or inserting one character costs 1).  Used to show the DP matrix
computes the classic Levenshtein distance. -/
inductive Aligns : List Char → List Char → Nat → Prop
  | nil : Aligns [] [] 0
  | keep {a b n} (x : Char) : Aligns a b n → Aligns (x :: a) (x :: b) n
  | subst {a b n} {x y : Char} : x ≠ y → Aligns a b n →
      Aligns (x :: a) (y :: b) (n + 1)
  | del {a b n} (x : Char) : Aligns a b n → Aligns (x :: a) b (n + 1)
  | ins {a b n} (y : Char) : Aligns a b n → Aligns a (y :: b) (n + 1)

theorem aligns_nil_left (b : List Char) : Aligns [] b b.length := by
  induction b with
  | nil => exact .nil
  | cons y ys ih => exact .ins y ih

theorem aligns_nil_right (a : List Char) : Aligns a [] a.length := by
  induction a with
  | nil => exact .nil
  | cons x xs ih => exact .del x ih

theorem aligns_snoc_keep {a b : List Char} {n : Nat} (x : Char)
    (h : Aligns a b n) : Aligns (a ++ [x]) (b ++ [x]) n := by
  induction h with
  | nil => exact .keep x .nil
  | keep z _ ih => exact .keep z ih
  | subst hne _ ih => exact .subst hne ih
  | del z _ ih => exact .del z ih
  | ins z _ ih => exact .ins z ih

theorem aligns_snoc_subst {a b : List Char} {n : Nat} {x y : Char}
    (hxy : x ≠ y) (h : Aligns a b n) : Aligns (a ++ [x]) (b ++ [y]) (n + 1) := by
  induction h with
  | nil => exact .subst hxy .nil
  | keep z _ ih => exact .keep z ih
  | subst hne _ ih => exact .subst hne ih
  | del z _ ih => exact .del z ih
  | ins z _ ih => exact .ins z ih

theorem aligns_snoc_del {a b : List Char} {n : Nat} (x : Char)
    (h : Aligns a b n) : Aligns (a ++ [x]) b (n + 1) := by
  induction h with
  | nil => exact .del x .nil
  | keep z _ ih => exact .keep z ih
  | subst hne _ ih => exact .subst hne ih
  | del z _ ih => exact .del z ih
  | ins z _ ih => exact .ins z ih

theorem aligns_snoc_ins {a b : List Char} {n : Nat} (y : Char)
    (h : Aligns a b n) : Aligns a (b ++ [y]) (n + 1) := by
  induction h with
  | nil => exact .ins y .nil
  | keep z _ ih => exact .keep z ih
  | subst hne _ ih => exact .subst hne ih
  | del z _ ih => exact .del z ih
  | ins z _ ih => exact .ins z ih

theorem aligns_reverse {a b : List Char} {n : Nat} (h : Aligns a b n) :
    Aligns a.reverse b.reverse n := by
  induction h with
  | nil => exact .nil
  | keep x _ ih => simpa using aligns_snoc_keep x ih
  | subst hne _ ih => simpa using aligns_snoc_subst hne ih
  | del x _ ih => simpa using aligns_snoc_del x ih
  | ins y _ ih => simpa using aligns_snoc_ins y ih

theorem aligns_symm {a b : List Char} {n : Nat} (h : Aligns a b n) :
    Aligns b a n := by
  induction h with
  | nil => exact .nil
  | keep x _ ih => exact .keep x ih
  | subst hne _ ih => exact .subst (Ne.symm hne) ih
  | del x _ ih => exact .ins x ih
  | ins y _ ih => exact .del y ih

theorem lev_del_ins_aux :
    ∀ k (a b : List Char), a.length + b.length ≤ k →
      (∀ x, levenshteinSpec (x :: a) b ≤ 1 + levenshteinSpec a b) ∧
      (∀ y, levenshteinSpec a b ≤ 1 + levenshteinSpec a (y :: b)) ∧
      (∀ y, levenshteinSpec a (y :: b) ≤ 1 + levenshteinSpec a b) ∧
      (∀ x, levenshteinSpec a b ≤ 1 + levenshteinSpec (x :: a) b) := by
  intro k
  induction k with
  | zero =>
    intro a b h
    have ha : a = [] := by cases a <;> simp_all
    have hb : b = [] := by cases b <;> simp_all
    subst ha; subst hb
    refine ⟨fun x => ?_, fun y => ?_, fun y => ?_, fun x => ?_⟩ <;>
      simp [levenshteinSpec_nil_right, levenshteinSpec_nil_left]
  | succ k ih =>
    intro a b h
    refine ⟨fun x => ?_, fun y => ?_, fun y => ?_, fun x => ?_⟩
    · -- adding a head character on the left costs at most one
      match b with
      | [] =>
        simp only [levenshteinSpec_nil_right, List.length_cons]
        omega
      | y :: ys =>
        rw [levenshteinSpec_cons_cons]
        by_cases hxy : x = y
        · rw [if_pos hxy]
          have hys : a.length + ys.length ≤ k := by
            simp at h; omega
          exact (ih a ys hys).2.1 y
        · rw [if_neg hxy]
          have h1 : min (levenshteinSpec a ys)
              (min (levenshteinSpec a (y :: ys)) (levenshteinSpec (x :: a) ys)) ≤
              levenshteinSpec a (y :: ys) :=
            le_trans (min_le_right _ _) (min_le_left _ _)
          omega
    · -- removing the head character of the second string costs at most one
      match a with
      | [] =>
        simp only [levenshteinSpec_nil_left, List.length_cons]
        omega
      | z :: zs =>
        rw [levenshteinSpec_cons_cons]
        have hzs : zs.length + b.length ≤ k := by
          simp at h; omega
        by_cases hzy : z = y
        · rw [if_pos hzy]
          exact (ih zs b hzs).1 z
        · rw [if_neg hzy]
          have h1 : levenshteinSpec (z :: zs) b ≤ 1 + levenshteinSpec zs b :=
            (ih zs b hzs).1 z
          have h2 : levenshteinSpec zs b ≤ 1 + levenshteinSpec zs (y :: b) :=
            (ih zs b hzs).2.1 y
          omega
    · -- adding a head character on the right costs at most one
      match a with
      | [] =>
        simp only [levenshteinSpec_nil_left, List.length_cons]
        omega
      | z :: zs =>
        rw [levenshteinSpec_cons_cons]
        have hzs : zs.length + b.length ≤ k := by
          simp at h; omega
        by_cases hzy : z = y
        · rw [if_pos hzy]
          exact (ih zs b hzs).2.2.2 z
        · rw [if_neg hzy]
          have h1 : min (levenshteinSpec zs b)
              (min (levenshteinSpec zs (y :: b)) (levenshteinSpec (z :: zs) b)) ≤
              levenshteinSpec (z :: zs) b :=
            le_trans (min_le_right _ _) (min_le_right _ _)
          omega
    · -- removing the head character of the first string costs at most one
      match b with
      | [] =>
        simp only [levenshteinSpec_nil_right, List.length_cons]
        omega
      | y :: ys =>
        rw [levenshteinSpec_cons_cons]
        have hys : a.length + ys.length ≤ k := by
          simp at h; omega
        by_cases hxy : x = y
        · rw [if_pos hxy]
          exact (ih a ys hys).2.2.1 y
        · rw [if_neg hxy]
          have h1 : levenshteinSpec a (y :: ys) ≤ 1 + levenshteinSpec a ys :=
            (ih a ys hys).2.2.1 y
          have h2 : levenshteinSpec a ys ≤ 1 + levenshteinSpec (x :: a) ys :=
            (ih a ys hys).2.2.2 x
          omega

theorem lev_cons_le {a b : List Char} (x : Char) :
    levenshteinSpec (x :: a) b ≤ 1 + levenshteinSpec a b :=
  (lev_del_ins_aux (a.length + b.length) a b le_rfl).1 x

theorem lev_cons_le_right {a b : List Char} (y : Char) :
    levenshteinSpec a (y :: b) ≤ 1 + levenshteinSpec a b :=
  (lev_del_ins_aux (a.length + b.length) a b le_rfl).2.2.1 y

theorem levenshteinSpec_le_of_aligns {a b : List Char} {n : Nat}
    (h : Aligns a b n) : levenshteinSpec a b ≤ n := by
  induction h with
  | nil => simp [levenshteinSpec_nil_left]
  | @keep u v m x _ ih =>
    rw [levenshteinSpec_cons_cons, if_pos rfl]
    exact ih
  | @subst u v m x y hne _ ih =>
    rw [levenshteinSpec_cons_cons, if_neg hne]
    have h1 : min (levenshteinSpec u v)
        (min (levenshteinSpec u (y :: v)) (levenshteinSpec (x :: u) v)) ≤
        levenshteinSpec u v := min_le_left _ _
    omega
  | @del u v m x _ ih =>
    have h1 := lev_cons_le (a := u) (b := v) x
    omega
  | @ins u v m y _ ih =>
    have h1 := lev_cons_le_right (a := u) (b := v) y
    omega

theorem aligns_levenshteinSpec :
    ∀ k (a b : List Char), a.length + b.length ≤ k →
      Aligns a b (levenshteinSpec a b) := by
  intro k
  induction k with
  | zero =>
    intro a b h
    have ha : a = [] := by cases a <;> simp_all
    have hb : b = [] := by cases b <;> simp_all
    subst ha; subst hb
    simpa [levenshteinSpec_nil_left] using Aligns.nil
  | succ k ih =>
    intro a b h
    match a, b with
    | [], b =>
      rw [levenshteinSpec_nil_left]
      exact aligns_nil_left b
    | x :: xs, [] =>
      rw [levenshteinSpec_nil_right]
      exact aligns_nil_right (x :: xs)
    | x :: xs, y :: ys =>
      rw [levenshteinSpec_cons_cons]
      simp only [List.length_cons] at h
      by_cases hxy : x = y
      · rw [if_pos hxy]
        subst hxy
        exact .keep x (ih xs ys (by omega))
      · rw [if_neg hxy]
        have hmin : min (levenshteinSpec xs ys)
              (min (levenshteinSpec xs (y :: ys)) (levenshteinSpec (x :: xs) ys)) =
                levenshteinSpec xs ys ∨
            min (levenshteinSpec xs ys)
              (min (levenshteinSpec xs (y :: ys)) (levenshteinSpec (x :: xs) ys)) =
                levenshteinSpec xs (y :: ys) ∨
            min (levenshteinSpec xs ys)
              (min (levenshteinSpec xs (y :: ys)) (levenshteinSpec (x :: xs) ys)) =
                levenshteinSpec (x :: xs) ys := by
          omega
        rcases hmin with hm | hm | hm <;> rw [hm]
        · rw [Nat.add_comm]
          exact .subst hxy (ih xs ys (by omega))
        · rw [Nat.add_comm]
          exact .del x (ih xs (y :: ys) (by simp only [List.length_cons]; omega))
        · rw [Nat.add_comm]
          exact .ins y (ih (x :: xs) ys (by simp only [List.length_cons]; omega))

theorem levenshteinSpec_reverse (a b : List Char) :
    levenshteinSpec a.reverse b.reverse = levenshteinSpec a b := by
  refine le_antisymm ?_ ?_
  · exact levenshteinSpec_le_of_aligns
      (aligns_reverse (aligns_levenshteinSpec (a.length + b.length) a b le_rfl))
  · have h := levenshteinSpec_le_of_aligns
      (aligns_reverse (aligns_levenshteinSpec
        (a.reverse.length + b.reverse.length) a.reverse b.reverse le_rfl))
    simpa using h

theorem levenshteinSpec_comm (a b : List Char) :
    levenshteinSpec a b = levenshteinSpec b a :=
  le_antisymm
    (levenshteinSpec_le_of_aligns
      (aligns_symm (aligns_levenshteinSpec (b.length + a.length) b a le_rfl)))
    (levenshteinSpec_le_of_aligns
      (aligns_symm (aligns_levenshteinSpec (a.length + b.length) a b le_rfl)))

theorem levenshteinSpec_self (a : List Char) : levenshteinSpec a a = 0 := by
  induction a with
  | nil => simp [levenshteinSpec_nil_left]
  | cons x xs ih => rw [levenshteinSpec_cons_cons, if_pos rfl]; exact ih

theorem lev_le_max_aux :
    ∀ k (a b : List Char), a.length + b.length ≤ k →
      levenshteinSpec a b ≤ max a.length b.length := by
  intro k
  induction k with
  | zero =>
    intro a b h
    have ha : a = [] := by cases a <;> simp_all
    have hb : b = [] := by cases b <;> simp_all
    subst ha; subst hb
    simp [levenshteinSpec_nil_left]
  | succ k ih =>
    intro a b h
    match a, b with
    | [], b => simp [levenshteinSpec_nil_left]
    | x :: xs, [] => simp [levenshteinSpec_nil_right]
    | x :: xs, y :: ys =>
      simp only [List.length_cons] at h ⊢
      rw [levenshteinSpec_cons_cons]
      have h1 : levenshteinSpec xs ys ≤ max xs.length ys.length :=
        ih xs ys (by omega)
      by_cases hxy : x = y
      · rw [if_pos hxy]
        omega
      · rw [if_neg hxy]
        have h2 := min_le_left (levenshteinSpec xs ys)
          (min (levenshteinSpec xs (y :: ys)) (levenshteinSpec (x :: xs) ys))
        omega

theorem levenshteinSpec_le_max (a b : List Char) :
    levenshteinSpec a b ≤ max a.length b.length :=
  lev_le_max_aux (a.length + b.length) a b le_rfl

/-- The DP matrix cell `(i, j)` holds the classic Levenshtein distance between
the length-`i` prefix of `str2` and the length-`j` prefix of `str1` (stated via
the reversed prefixes, matching the head-recursion of `levenshteinSpec`). -/
theorem levMatrix_eq (s1 s2 : List Char) :
    ∀ i j, i ≤ s2.length → j ≤ s1.length →
      levMatrix s1 s2 i j =
        levenshteinSpec ((s2.take i).reverse) ((s1.take j).reverse) := by
  intro i
  induction i with
  | zero =>
    intro j _ hj
    match j with
    | 0 => simp [levMatrix, levenshteinSpec_nil_left]
    | j + 1 =>
      rw [levMatrix]
      simp only [List.take_zero, List.reverse_nil, levenshteinSpec_nil_left,
        List.length_reverse, List.length_take]
      omega
  | succ i ih =>
    intro j
    induction j with
    | zero =>
      intro hi _
      rw [levMatrix]
      simp only [List.take_zero, List.reverse_nil, levenshteinSpec_nil_right,
        List.length_reverse, List.length_take]
      omega
    | succ j ihj =>
      intro hi hj
      have hi' : i < s2.length := by omega
      have hj' : j < s1.length := by omega
      have hs2 : (s2.take (i + 1)).reverse = s2[i] :: (s2.take i).reverse := by
        rw [List.take_succ, List.getElem?_eq_getElem hi']
        simp
      have hs1 : (s1.take (j + 1)).reverse = s1[j] :: (s1.take j).reverse := by
        rw [List.take_succ, List.getElem?_eq_getElem hj']
        simp
      rw [levMatrix, hs2, hs1, levenshteinSpec_cons_cons]
      rw [List.getD_eq_getElem s2 ' ' hi', List.getD_eq_getElem s1 ' ' hj']
      have e1 := ih j (by omega) (by omega)
      have e2 := ih (j + 1) (by omega) (by omega)
      have e3 := ihj (by omega) (by omega)
      rw [hs1] at e2
      by_cases hc : s2[i] = s1[j]
      · rw [if_pos hc, if_pos hc, e1]
      · rw [if_neg hc, if_neg hc, e1, e2, e3, hs2]
        omega

/-- The value the source reads out of the matrix
(`matrix[str2.length][str1.length]`) is the classic Levenshtein distance
between the two input strings. -/
theorem levMatrix_full (s1 s2 : List Char) :
    levMatrix s1 s2 s2.length s1.length = levenshteinSpec s1 s2 := by
  rw [levMatrix_eq s1 s2 s2.length s1.length le_rfl le_rfl,
    List.take_length, List.take_length, levenshteinSpec_reverse,
    levenshteinSpec_comm]

theorem calculateStringSimilarity_self (a : List Char) :
    calculateStringSimilarity a a = 1 := by
  simp [calculateStringSimilarity]

theorem calculateStringSimilarity_bounds (a b : List Char) :
    0 ≤ calculateStringSimilarity a b ∧ calculateStringSimilarity a b ≤ 1 := by
  unfold calculateStringSimilarity
  split
  · norm_num
  · split
    · norm_num
    · rename_i hne hlen
      push_neg at hlen
      have hm : (0 : ℚ) < (max a.length b.length : ℕ) := by
        have : 0 < max a.length b.length := by
          rcases hlen with ⟨h1, h2⟩
          omega
        exact_mod_cast this
      have hd : (levMatrix a b b.length a.length : ℚ) ≤ (max a.length b.length : ℕ) := by
        rw [levMatrix_full]
        exact_mod_cast levenshteinSpec_le_max a b
      have hd0 : (0 : ℚ) ≤ (levMatrix a b b.length a.length : ℚ) := by positivity
      constructor
      · have : (levMatrix a b b.length a.length : ℚ) / (max a.length b.length : ℕ) ≤ 1 :=
          (div_le_one hm).mpr hd
        linarith
      · have : 0 ≤ (levMatrix a b b.length a.length : ℚ) / (max a.length b.length : ℕ) :=
          div_nonneg hd0 (le_of_lt hm)
        linarith

/-! ### Confidence scorer (`calculateMatchConfidence`, lines 143-227) -/

/-- Character class of the split regex `/[\s\(\)]+/`: whitespace and
parentheses. -/
def isSeparator (c : Char) : Bool := c.isWhitespace || c = '(' || c = ')'

/-- Splits a string at separator characters, as `String.split` on the regex
does (runs of separators can produce empty chunks, which the callers drop by
their length filter). -/
def tokenize (s : List Char) : List (List Char) :=
  s.foldr
    (fun c acc =>
      if isSeparator c then [] :: acc
      else
        match acc with
        | t :: ts => (c :: t) :: ts
        | [] => [[c]])
    [[]]

/-- Models JavaScript `a.includes(b)` on strings: `b` occurs contiguously
inside `a` (every string includes the empty string). -/
def jsIncludes (a b : List Char) : Bool := decide (b <:+: a)

/-- Models `str.toLowerCase()`. -/
def lowerStr (s : List Char) : List Char := s.map Char.toLower

/-- A place mention proposed by the language model; the scorer reads only its
name. -/
structure PlaceMention where
  name : List Char
deriving DecidableEq

/-- A search candidate returned by the Places text-search call, with the
fields the verification code reads.  `Option` models absent JSON fields. -/
structure ApiPlace where
  displayName : Option (List Char)
  formattedAddress : Option (List Char)
  businessStatus : Option (List Char)
  rating : Option ℚ
  userRatingCount : Option ℕ
  id : Option (List Char)
  location : Option ((List Char) × (List Char))
  types : List (List Char)
deriving DecidableEq

/-- Models `apiPlace.displayName?.text || apiPlace.displayName || ''`: the
candidate's display-name text, or the empty string when absent. -/
def extractDisplayName (c : ApiPlace) : List Char := c.displayName.getD []

/-- The token-overlap bonus of lines 169-192: tokenize both names, keep
tokens longer than 2 characters, count mention tokens that contain a
candidate token, are contained in one, or are similar above 0.8; the bonus
is `(matched tokens / mention tokens) * 0.15` (0 when the mention has no
tokens, mirroring the `nameWords.length > 0` guard). -/
def wordMatchBonus (originalName apiName : List Char) : ℚ :=
  let nameWords := (tokenize originalName).filter (fun w => 2 < w.length)
  let apiWords := (tokenize apiName).filter (fun w => 2 < w.length)
  let wordMatches := nameWords.countP (fun w =>
    apiWords.any (fun aw =>
      jsIncludes w aw || jsIncludes aw w ||
        decide (4 / 5 < calculateStringSimilarity w aw)))
  if 0 < nameWords.length then
    (wordMatches : ℚ) / (nameWords.length : ℚ) * (3 / 20)
  else 0

/-- Name-similarity part of the score (lines 154-193), applied to the two
case-folded names: 0.6 for an exact match; otherwise 0.5 for containment in
either direction or `similarity * 0.6`, plus the token-overlap bonus, which
the source computes whenever the exact-match branch was not taken. -/
def nameConfidence (originalName apiName : List Char) : ℚ :=
  if originalName = apiName then 3 / 5
  else
    (if jsIncludes originalName apiName || jsIncludes apiName originalName then
        (1 : ℚ) / 2
      else calculateStringSimilarity originalName apiName * (3 / 5)) +
    wordMatchBonus originalName apiName

/-- Address part of the score (lines 195-209): 0.3 when the case-folded city
occurs in the formatted address, else 0.15 for the fixed regional aliases. -/
def addressConfidence (c : ApiPlace) (city : List Char) : ℚ :=
  let apiAddress := c.formattedAddress.getD []
  if jsIncludes (lowerStr apiAddress) (lowerStr city) then 3 / 10
  else if jsIncludes (lowerStr apiAddress) "portugal".toList ||
      jsIncludes (lowerStr apiAddress) "lisboa".toList ||
      jsIncludes (lowerStr apiAddress) "lisbon".toList then 3 / 20
  else 0

/-- Business-status part of the score (lines 211-216). -/
def statusConfidence (c : ApiPlace) : ℚ :=
  if c.businessStatus = some "OPERATIONAL".toList then 1 / 20
  else if c.businessStatus = some "CLOSED_TEMPORARILY".toList then 1 / 40
  else 0

/-- Rating-quality part of the score (lines 218-224); the truthiness guards
`apiPlace.rating &&`, `apiPlace.userRatingCount &&` exclude absent and zero
values. -/
def qualityConfidence (c : ApiPlace) : ℚ :=
  (if c.rating.getD 0 ≠ 0 ∧ 4 ≤ c.rating.getD 0 then 3 / 100 else 0) +
  (if c.userRatingCount.getD 0 ≠ 0 ∧ 1000 ≤ c.userRatingCount.getD 0 then
      (1 : ℚ) / 50
    else 0)

/-- Model of `calculateMatchConfidence(originalPlace, apiPlace, city)`
(lines 143-227): the sum of the four signal groups, capped at 1. -/
def calculateMatchConfidence (originalPlace : PlaceMention) (apiPlace : ApiPlace)
    (city : List Char) : ℚ :=
  min
    (nameConfidence (lowerStr originalPlace.name)
        (lowerStr (extractDisplayName apiPlace)) +
      addressConfidence apiPlace city +
      statusConfidence apiPlace +
      qualityConfidence apiPlace)
    1

/-! ### Candidate resolution and per-mention verification (lines 9-134) -/

/-- The record `findBestMatch` builds from the winning candidate
(lines 113-127). -/
structure ResolvedPlace where
  id : Option (List Char)
  name : List Char
  address : Option (List Char)
  location : Option ((List Char) × (List Char))
  rating : Option ℚ
  userRatingCount : Option ℕ
  businessStatus : Option (List Char)
  types : List (List Char)
  place_id : Option (List Char)
deriving DecidableEq

/-- Projection of an API candidate onto the stored best-match record
(lines 113-127). -/
def toResolvedPlace (c : ApiPlace) : ResolvedPlace where
  id := c.id
  name := extractDisplayName c
  address := c.formattedAddress
  location := c.location
  rating := c.rating
  userRatingCount := c.userRatingCount
  businessStatus := c.businessStatus
  types := c.types
  place_id := c.id

/-- Running best candidate of `findBestMatch`; starts as
`{place: null, confidence: 0}`. -/
structure BestMatch where
  place : Option ResolvedPlace
  confidence : ℚ

/-- Model of `findBestMatch(originalPlace, apiResults, city)`
(lines 102-134): scans the candidates in search order and records a candidate
only when its confidence strictly exceeds the best so far. -/
def findBestMatch (originalPlace : PlaceMention) (apiResults : List ApiPlace)
    (city : List Char) : BestMatch :=
  apiResults.foldl
    (fun best apiPlace =>
      let confidence := calculateMatchConfidence originalPlace apiPlace city
      if best.confidence < confidence then
        { place := some (toResolvedPlace apiPlace), confidence := confidence }
      else best)
    { place := none, confidence := 0 }

/-- Outcome of one search call, as `verifyPlace` distinguishes them: a
non-ok HTTP response (lines 40-53), a thrown/network error caught at
lines 84-92, or a successful response carrying the candidate list. -/
inductive SearchResponse where
  | httpError (status : ℕ) (errorText : List Char)
  | networkError (message : List Char)
  | ok (places : List ApiPlace)

/-- Failure reason recorded in a `VerificationOutcome.error` field. -/
inductive VerifyError where
  | apiError (status : ℕ) (text : List Char)
  | noMatches
  | exception (message : List Char)
deriving DecidableEq

/-- Per-mention verification outcome, mirroring the object literals returned
by `verifyPlace` (lines 47-52, 59-64, 76-83, 86-91). -/
structure VerificationOutcome where
  verified : Bool
  confidence : ℚ
  originalPlace : PlaceMention
  verifiedPlace : Option ResolvedPlace
  alternativeMatches : Option (List ApiPlace)
  error : Option VerifyError

/-- Model of `verifyPlace(place, city)` (lines 9-93), with the search call
abstracted into the `response` argument.  A non-ok response, a thrown error
and an empty result list each yield `verified:false, confidence:0` with a
failure reason; otherwise the best match decides the outcome with the 0.3
acceptance threshold (line 70). -/
def verifyPlace (place : PlaceMention) (city : List Char)
    (response : SearchResponse) : VerificationOutcome :=
  match response with
  | .httpError status text =>
    { verified := false, confidence := 0, originalPlace := place,
      verifiedPlace := none, alternativeMatches := none,
      error := some (.apiError status text) }
  | .networkError msg =>
    { verified := false, confidence := 0, originalPlace := place,
      verifiedPlace := none, alternativeMatches := none,
      error := some (.exception msg) }
  | .ok places =>
    if places.isEmpty then
      { verified := false, confidence := 0, originalPlace := place,
        verifiedPlace := none, alternativeMatches := none,
        error := some .noMatches }
    else
      let bestMatch := findBestMatch place places city
      { verified := decide ((3 : ℚ) / 10 < bestMatch.confidence),
        confidence := bestMatch.confidence,
        originalPlace := place,
        verifiedPlace := bestMatch.place,
        alternativeMatches := some (places.take 3),
        error := none }

/-! ### Batch verification (`verifyAllPlaces`, lines 274-335) -/

/-- Input to the batch verifier; `places = none` models a missing or
non-array `places` field. -/
structure RouteResponse where
  places : Option (List PlaceMention)
  city : List Char

/-- Models JavaScript floating-point division where the result is used as a
finite number: `none` marks the non-finite outcomes (`0/0` is `NaN`). -/
def jsDiv (a b : ℚ) : Option ℚ := if b = 0 then none else some (a / b)

/-- Batch summary (lines 298-303).  `verificationRate` is
`(verifiedCount / totalCount) * 100` under JS division semantics. -/
structure BatchSummary where
  totalPlaces : ℕ
  verifiedPlaces : ℕ
  verificationRate : Option ℚ
  unverifiedPlaces : ℕ
deriving DecidableEq

/-- Result of `verifyAllPlaces`: a batch-level failure (invalid input shape)
or the per-mention outcomes plus the summary. -/
inductive BatchResult where
  | failure (error : List Char)
  | success (verificationResults : List VerificationOutcome)
      (summary : BatchSummary)

/-- Model of `verifyAllPlaces(routeResponse)` (lines 274-335).  The search
service is abstracted as the pure `search` oracle; the concurrent
`Promise.all` over independent per-mention computations is modelled as a
`map`.  `verifyPlace` never throws (it catches internally), so the
batch-level catch is unreachable and the only failure is the input-shape
check at lines 275-280. -/
def verifyAllPlaces (routeResponse : RouteResponse)
    (search : PlaceMention → SearchResponse) : BatchResult :=
  match routeResponse.places with
  | none => .failure "Invalid route response format".toList
  | some places =>
    let verificationResults :=
      places.map (fun p => verifyPlace p routeResponse.city (search p))
    let verifiedCount := (verificationResults.filter (fun r => r.verified)).length
    let totalCount := verificationResults.length
    .success verificationResults
      { totalPlaces := totalCount,
        verifiedPlaces := verifiedCount,
        verificationRate :=
          (jsDiv (verifiedCount : ℚ) (totalCount : ℚ)).map (fun q => q * 100),
        unverifiedPlaces := totalCount - verifiedCount }

/-! ### Route optimization (`lib/routes-optimization.js`) -/

/-- A stop as consumed by the route optimizer and the maps-link generator:
an optional place identifier, an optional formatted address and optional
coordinates (kept as their rendered text, since the code only ever
interpolates them into strings). -/
structure RoutePlace where
  place_id : Option (List Char)
  address : Option (List Char)
  location : Option ((List Char) × (List Char))
deriving DecidableEq, Inhabited

/-- JavaScript truthiness of an optional string field: absent and empty
strings are falsy. -/
def jsStrTruthy (o : Option (List Char)) : Bool := !(o.getD []).isEmpty

/-- One route of the Routes API response; the optimizer only reads the
optional `optimizedIntermediateWaypointIndex` field (an empty array is
truthy in JS and therefore modelled as `some []`). -/
structure RouteData where
  optimizedIntermediateWaypointIndex : Option (List ℕ)

/-- Outcome of the Routes API call as `optimizeRouteOrder` distinguishes
them: a non-ok HTTP response (line 99), a thrown error caught at line 181,
or a successful response carrying the route list. -/
inductive RoutesResponse where
  | httpError (status : ℕ) (errorText : List Char)
  | networkError (message : List Char)
  | ok (routes : List RouteData)

/-- Result of `optimizeRouteOrder`; every path returns `success: true`. -/
structure OptimizeResult where
  success : Bool
  optimized : Bool
  places : List RoutePlace

/-- Model of `optimizeRouteOrder(places, travelMode)`
(lib/routes-optimization.js lines 9-193), with the Routes API call
abstracted into the `response` argument.  The `throw` for fewer than 2
input places (line 13) is caught by the function's own catch (line 181),
which returns the unfiltered input; the non-ok-response and
missing-permutation branches return the filtered `placesWithIds`; a
permutation reindexes the intermediates and is framed by origin and
destination (lines 139-145). -/
def optimizeRouteOrder (places : List RoutePlace) (response : RoutesResponse) :
    OptimizeResult :=
  if places.length < 2 then
    { success := true, optimized := false, places := places }
  else
    let placesWithIds := places.filter (fun p => jsStrTruthy p.place_id)
    if placesWithIds.length < 2 then
      { success := true, optimized := false, places := places }
    else if placesWithIds.length = 2 then
      { success := true, optimized := false, places := placesWithIds }
    else
      match response with
      | .networkError _ =>
        { success := true, optimized := false, places := places }
      | .httpError _ _ =>
        { success := true, optimized := false, places := placesWithIds }
      | .ok [] =>
        { success := true, optimized := false, places := placesWithIds }
      | .ok (route :: _) =>
        match route.optimizedIntermediateWaypointIndex with
        | none => { success := true, optimized := false, places := placesWithIds }
        | some optimizedOrder =>
          let origin := placesWithIds.getD 0 default
          let destination := placesWithIds.getD (placesWithIds.length - 1) default
          let intermediates := (placesWithIds.drop 1).dropLast
          { success := true, optimized := true,
            places := origin ::
              optimizedOrder.map (fun i => intermediates.getD i default) ++
              [destination] }

/-! ### Maps deep link (`generateOptimizedMapsUrl`, lines 201-329) -/

/-- The value rendered for one stop in the link: the encoded address when
the address is truthy, else `lat%2Clng` when coordinates exist, else
nothing — the exact conditional of lines 238-242 (and 257-262).  `enc`
abstracts the `encodeURIComponent`-based `urlEncode` helper. -/
def placeValue (enc : List Char → List Char) (p : RoutePlace) :
    Option (List Char) :=
  if jsStrTruthy p.address then some (enc (p.address.getD []))
  else
    match p.location with
    | some (lat, lng) => some (lat ++ "%2C".toList ++ lng)
    | none => none

/-- The `&origin=...` fragment appended at lines 238-242 (empty when the
stop has neither address nor coordinates). -/
def originSegment (enc : List Char → List Char) (p : RoutePlace) : List Char :=
  match placeValue enc p with
  | some v => "&origin=".toList ++ v
  | none => []

/-- The `&destination=...` fragment appended at lines 245-250. -/
def destSegment (enc : List Char → List Char) (p : RoutePlace) : List Char :=
  match placeValue enc p with
  | some v => "&destination=".toList ++ v
  | none => []

/-- The `&waypoints=...` fragment of lines 253-269. -/
def waypointsSegment (enc : List Char → List Char) (places : List RoutePlace) :
    List Char :=
  if 2 < places.length then
    let waypointStrings :=
      (((places.drop 1).dropLast.map (fun p => (placeValue enc p).getD [])).filter
        (fun wp => wp ≠ []))
    if 0 < waypointStrings.length then
      "&waypoints=".toList ++ List.intercalate "%7C".toList waypointStrings
    else []
  else []

/-- The place-id fragments of lines 272-297. -/
def placeIdsSegment (places : List RoutePlace) : List Char :=
  let placeIds := (places.map (fun p => p.place_id)).filter (fun id => id.isSome)
  if 0 < placeIds.length then
    let origin := places.getD 0 default
    let destination := places.getD (places.length - 1) default
    (if jsStrTruthy origin.place_id then
        "&origin_place_id=".toList ++ origin.place_id.getD []
      else []) ++
    (if jsStrTruthy destination.place_id then
        "&destination_place_id=".toList ++ destination.place_id.getD []
      else []) ++
    (if 2 < places.length then
      let waypointPlaceIds :=
        ((((places.drop 1).dropLast.map (fun p => p.place_id)).filter
          (fun id => id.isSome)).map (fun id => id.getD []))
      if 0 < waypointPlaceIds.length then
        "&waypoint_place_ids=".toList ++ List.intercalate "%7C".toList waypointPlaceIds
      else []
    else [])
  else []

/-- The travel-mode lookup table with its `|| 'walking'` default
(lines 222-233). -/
def modeToGoogle (travelMode : List Char) : List Char :=
  if travelMode = "WALK".toList ∨ travelMode = "walking".toList then
    "walking".toList
  else if travelMode = "DRIVE".toList ∨ travelMode = "driving".toList then
    "driving".toList
  else if travelMode = "TRANSIT".toList ∨ travelMode = "transit".toList then
    "transit".toList
  else if travelMode = "BICYCLE".toList ∨ travelMode = "bicycling".toList then
    "bicycling".toList
  else "walking".toList

/-- The UTM suffix of line 300. -/
def utmOptimized : List Char :=
  "&utm_source=ai_travel_planner&utm_campaign=optimized_walking_route".toList

/-- Model of `generateOptimizedMapsUrl(optimizedPlaces, travelMode)`
(lines 201-329): builds the full link, and when it exceeds 2048 characters
rebuilds the simplified link that keeps only travel mode, origin,
destination and the UTM suffix (lines 303-326).  Returns `none` for an
empty stop list (line 206). -/
def generateOptimizedMapsUrl (enc : List Char → List Char)
    (optimizedPlaces : List RoutePlace) (travelMode : List Char) :
    Option (List Char) :=
  if optimizedPlaces.isEmpty then none
  else
    let googleTravelMode := modeToGoogle travelMode
    let origin := optimizedPlaces.getD 0 default
    let destination := optimizedPlaces.getD (optimizedPlaces.length - 1) default
    let url :=
      "https://www.google.com/maps/dir/?api=1".toList ++
      "&travelmode=".toList ++ googleTravelMode ++
      originSegment enc origin ++
      destSegment enc destination ++
      waypointsSegment enc optimizedPlaces ++
      placeIdsSegment optimizedPlaces ++
      utmOptimized
    if 2048 < url.length then
      some ("https://www.google.com/maps/dir/?api=1".toList ++
        "&travelmode=".toList ++ googleTravelMode ++
        originSegment enc origin ++
        destSegment enc destination ++
        utmOptimized)
    else some url

/-! ### Helper accessors and supporting lemmas -/

/-- Whether a batch result is a success. -/
def BatchResult.isSuccess : BatchResult → Bool
  | .success _ _ => true
  | .failure _ => false

/-- The per-mention outcomes of a batch result (empty on failure). -/
def BatchResult.outcomes : BatchResult → List VerificationOutcome
  | .success rs _ => rs
  | .failure _ => []

/-- The summary of a batch result (a zeroed summary on failure). -/
def BatchResult.summaryD : BatchResult → BatchSummary
  | .success _ s => s
  | .failure _ => ⟨0, 0, none, 0⟩

/-- A search outcome that the per-mention failure policy applies to: a
non-ok HTTP response, a thrown error, or an empty result list. -/
def isSearchFailure : SearchResponse → Bool
  | .httpError _ _ => true
  | .networkError _ => true
  | .ok ps => ps.isEmpty

theorem wordMatchBonus_nonneg (n1 n2 : List Char) : 0 ≤ wordMatchBonus n1 n2 := by
  unfold wordMatchBonus
  dsimp only
  split
  · positivity
  · exact le_refl 0

theorem nameConfidence_nonneg (n1 n2 : List Char) : 0 ≤ nameConfidence n1 n2 := by
  unfold nameConfidence
  have hsim := (calculateStringSimilarity_bounds n1 n2).1
  have hb := wordMatchBonus_nonneg n1 n2
  split
  · norm_num
  · have h1 : (0 : ℚ) ≤
        (if jsIncludes n1 n2 || jsIncludes n2 n1 then (1 : ℚ) / 2
          else calculateStringSimilarity n1 n2 * (3 / 5)) := by
      split
      · norm_num
      · positivity
    linarith

theorem addressConfidence_nonneg (c : ApiPlace) (city : List Char) :
    0 ≤ addressConfidence c city := by
  unfold addressConfidence
  dsimp only
  split
  · norm_num
  · split <;> norm_num

theorem statusConfidence_nonneg (c : ApiPlace) : 0 ≤ statusConfidence c := by
  unfold statusConfidence
  split
  · norm_num
  · split <;> norm_num

theorem qualityConfidence_nonneg (c : ApiPlace) : 0 ≤ qualityConfidence c := by
  unfold qualityConfidence
  have h1 : (0 : ℚ) ≤ (if c.rating.getD 0 ≠ 0 ∧ 4 ≤ c.rating.getD 0
      then (3 : ℚ) / 100 else 0) := by split <;> norm_num
  have h2 : (0 : ℚ) ≤ (if c.userRatingCount.getD 0 ≠ 0 ∧ 1000 ≤ c.userRatingCount.getD 0
      then (1 : ℚ) / 50 else 0) := by split <;> norm_num
  linarith

theorem findBestMatch_isSome_aux (m : PlaceMention) (city : List Char) :
    ∀ (cs : List ApiPlace) (init : BestMatch),
      ((cs.foldl
        (fun best apiPlace =>
          let confidence := calculateMatchConfidence m apiPlace city
          if best.confidence < confidence then
            { place := some (toResolvedPlace apiPlace), confidence := confidence }
          else best)
        init).place).isSome = true ↔
      (init.place.isSome = true ∨
        ∃ c ∈ cs, init.confidence < calculateMatchConfidence m c city) := by
  intro cs
  induction cs with
  | nil => simp
  | cons c rest ih =>
    intro init
    simp only [List.foldl_cons]
    by_cases hc : init.confidence < calculateMatchConfidence m c city
    · rw [if_pos hc, ih]
      simp only [Option.isSome_some, true_or, true_iff]
      right
      exact ⟨c, List.mem_cons_self c rest, hc⟩
    · rw [if_neg hc, ih]
      constructor
      · rintro (h | ⟨x, hx, hlt⟩)
        · exact Or.inl h
        · exact Or.inr ⟨x, List.mem_cons_of_mem c hx, hlt⟩
      · rintro (h | ⟨x, hx, hlt⟩)
        · exact Or.inl h
        · rcases List.mem_cons.mp hx with hx | hx
          · subst hx
            exact absurd hlt hc
          · exact Or.inr ⟨x, hx, hlt⟩

theorem findBestMatch_isSome_iff (m : PlaceMention) (city : List Char)
    (cs : List ApiPlace) :
    ((findBestMatch m cs city).place).isSome = true ↔
      ∃ c ∈ cs, 0 < calculateMatchConfidence m c city := by
  unfold findBestMatch
  rw [findBestMatch_isSome_aux]
  simp

theorem verifyPlace_failure (p : PlaceMention) (city : List Char)
    (r : SearchResponse) (h : isSearchFailure r = true) :
    (verifyPlace p city r).verified = false ∧
    (verifyPlace p city r).confidence = 0 ∧
    ((verifyPlace p city r).error).isSome = true := by
  cases r with
  | httpError st txt => simp [verifyPlace]
  | networkError msg => simp [verifyPlace]
  | ok ps =>
    simp only [isSearchFailure] at h
    simp [verifyPlace, h]

theorem verified_count_bound (city : List Char)
    (search : PlaceMention → SearchResponse) (ps : List PlaceMention) :
    ((ps.map (fun p => verifyPlace p city (search p))).filter
        (fun r => r.verified)).length +
      (ps.filter (fun p => isSearchFailure (search p))).length ≤ ps.length := by
  induction ps with
  | nil => simp
  | cons p rest ih =>
    simp only [List.map_cons, List.filter_cons, List.length_cons]
    by_cases hf : isSearchFailure (search p) = true
    · have hv := (verifyPlace_failure p city (search p) hf).1
      rw [hv]
      simp only [hf, if_true, List.length_cons, Bool.false_eq_true, if_false]
      omega
    · simp only [hf, Bool.false_eq_true, if_false]
      cases hverif : (verifyPlace p city (search p)).verified
      · simp only [Bool.false_eq_true, if_false]
        omega
      · simp only [if_true, List.length_cons]
        omega

/-! ### Branch lemmas for the name score -/

theorem nameConfidence_exact {n1 n2 : List Char} (h : n1 = n2) :
    nameConfidence n1 n2 = 3 / 5 := by
  unfold nameConfidence
  rw [if_pos h]

theorem nameConfidence_contains {n1 n2 : List Char} (hne : n1 ≠ n2)
    (hc : (jsIncludes n1 n2 || jsIncludes n2 n1) = true) :
    nameConfidence n1 n2 = 1 / 2 + wordMatchBonus n1 n2 := by
  unfold nameConfidence
  rw [if_neg hne, if_pos hc]

theorem nameConfidence_sim {n1 n2 : List Char} (hne : n1 ≠ n2)
    (hc : (jsIncludes n1 n2 || jsIncludes n2 n1) = false) :
    nameConfidence n1 n2 =
      calculateStringSimilarity n1 n2 * (3 / 5) + wordMatchBonus n1 n2 := by
  unfold nameConfidence
  rw [if_neg hne, if_neg (by simp [hc])]

theorem wordMatchBonus_abc_xabc :
    wordMatchBonus "abc".toList "xabc".toList = 3 / 20 := by
  unfold wordMatchBonus
  have h1 : (tokenize "abc".toList).filter (fun w => decide (2 < w.length)) =
      ["abc".toList] := by decide
  have h2 : (tokenize "xabc".toList).filter (fun w => decide (2 < w.length)) =
      ["xabc".toList] := by decide
  rw [h1, h2]
  dsimp only
  have ht : jsIncludes "xabc".toList "abc".toList = true := by decide
  simp only [List.countP_cons, List.countP_nil, List.any_cons, List.any_nil,
    ht, Bool.or_true, Bool.true_or, Bool.or_false, if_true]
  norm_num

/-! ### Claim theorems -/

/-- C6: `calculateStringSimilarity(a, b)` returns 1 when `a = b`; returns 0
when `a ≠ b` and either string is empty; and otherwise returns
`1 - editDistance(a,b) / max(len a, len b)` where the edit distance is the
classic unit-cost Levenshtein distance (substitution, insertion, deletion
each cost 1); in particular `similarity(x,x) = 1` for all `x` and
`similarity(x, "") = 0` for non-empty `x`. -/
theorem C6_string_similarity (a b : List Char) :
    (a = b → calculateStringSimilarity a b = 1) ∧
    (a ≠ b → a = [] ∨ b = [] → calculateStringSimilarity a b = 0) ∧
    (a ≠ b → a ≠ [] → b ≠ [] →
      calculateStringSimilarity a b =
        1 - (levenshteinSpec a b : ℚ) / (max a.length b.length : ℕ)) ∧
    calculateStringSimilarity a a = 1 ∧
    (a ≠ [] → calculateStringSimilarity a [] = 0) := by
  refine ⟨?_, ?_, ?_, calculateStringSimilarity_self a, ?_⟩
  · intro h
    subst h
    exact calculateStringSimilarity_self a
  · intro hne hemp
    unfold calculateStringSimilarity
    rw [if_neg hne, if_pos]
    rcases hemp with h | h <;> simp [h]
  · intro hne ha hb
    unfold calculateStringSimilarity
    rw [if_neg hne, if_neg, levMatrix_full]
    simp [List.length_eq_zero, ha, hb]
  · intro ha
    unfold calculateStringSimilarity
    rw [if_neg ha, if_pos]
    right
    rfl

/-- Witness for C6 at the concrete pair "ab", "b": both non-empty and
distinct, the normalized-Levenshtein formula applies, and the similarity
evaluates to 1/2 (edit distance 1 over max length 2). -/
theorem C6_witness :
    ("ab".toList ≠ "b".toList ∧ "ab".toList ≠ ([] : List Char) ∧
      "b".toList ≠ ([] : List Char)) ∧
    calculateStringSimilarity "ab".toList "b".toList =
      1 - (levenshteinSpec "ab".toList "b".toList : ℚ) /
        (max ("ab".toList).length ("b".toList).length : ℕ) ∧
    calculateStringSimilarity "ab".toList "b".toList = 1 / 2 := by
  refine ⟨⟨by decide, by decide, by decide⟩,
    (C6_string_similarity "ab".toList "b".toList).2.2.1
      (by decide) (by decide) (by decide), ?_⟩
  unfold calculateStringSimilarity
  rw [if_neg (by decide), if_neg (by decide), levMatrix_full]
  have h : levenshteinSpec "ab".toList "b".toList = 1 := by
    show levenshteinSpec ['a', 'b'] ['b'] = 1
    simp [levenshteinSpec_cons_cons, levenshteinSpec_nil_right,
      levenshteinSpec_nil_left]
  rw [h]
  norm_num

/-- C2: for every mention, candidate and city context the confidence score
lies in [0,1]: each signal contribution is non-negative and the final sum is
capped at 1. -/
theorem C2_confidence_in_unit_interval (m : PlaceMention) (c : ApiPlace)
    (city : List Char) :
    0 ≤ calculateMatchConfidence m c city ∧
      calculateMatchConfidence m c city ≤ 1 := by
  constructor
  · unfold calculateMatchConfidence
    have h1 := nameConfidence_nonneg (lowerStr m.name)
      (lowerStr (extractDisplayName c))
    have h2 := addressConfidence_nonneg c city
    have h3 := statusConfidence_nonneg c
    have h4 := qualityConfidence_nonneg c
    exact le_min (by linarith) (by norm_num)
  · exact min_le_right _ _

/-- C1 fails as stated: on the substring-containment path the token-overlap
bonus is still added.  Mention "abc" against candidate name "xabc" with no
other matching signal: the containment branch applies (0.5), yet the token
bonus contributes a further `1 * 0.15`, so the score is 0.65, not 0.5. -/
theorem C1_counterexample :
    (lowerStr "abc".toList ≠
      lowerStr (extractDisplayName
        ⟨some "xabc".toList, none, none, none, none, none, none, []⟩)) ∧
    jsIncludes
      (lowerStr (extractDisplayName
        ⟨some "xabc".toList, none, none, none, none, none, none, []⟩))
      (lowerStr "abc".toList) = true ∧
    wordMatchBonus "abc".toList "xabc".toList = 3 / 20 ∧
    calculateMatchConfidence ⟨"abc".toList⟩
      ⟨some "xabc".toList, none, none, none, none, none, none, []⟩
      "q".toList = 13 / 20 := by
  refine ⟨by decide, by decide, wordMatchBonus_abc_xabc, ?_⟩
  unfold calculateMatchConfidence
  have hl1 : lowerStr ("abc".toList) = "abc".toList := by decide
  have hl2 : lowerStr (extractDisplayName
      ⟨some "xabc".toList, none, none, none, none, none, none, []⟩) =
      "xabc".toList := by decide
  rw [hl1, hl2]
  rw [nameConfidence_contains (by decide) (by decide), wordMatchBonus_abc_xabc]
  have ha : addressConfidence
      ⟨some "xabc".toList, none, none, none, none, none, none, []⟩
      "q".toList = 0 := by
    unfold addressConfidence
    dsimp only
    rw [if_neg (by decide), if_neg (by decide)]
  have hs : statusConfidence
      ⟨some "xabc".toList, none, none, none, none, none, none, []⟩ = 0 := by
    unfold statusConfidence
    rw [if_neg (by decide), if_neg (by decide)]
  have hq : qualityConfidence
      ⟨some "xabc".toList, none, none, none, none, none, none, []⟩ = 0 := by
    norm_num [qualityConfidence]
  rw [ha, hs, hq, min_def]
  norm_num

/-- C1 (amended): the token-overlap bonus contributes 0 only on the
exact-match path (name contribution exactly 0.6); on both non-exact paths —
substring containment included — the bonus is added on top of the branch
value. -/
theorem C1_token_bonus (n1 n2 : List Char) :
    (n1 = n2 → nameConfidence n1 n2 = 3 / 5) ∧
    (n1 ≠ n2 → (jsIncludes n1 n2 || jsIncludes n2 n1) = true →
      nameConfidence n1 n2 = 1 / 2 + wordMatchBonus n1 n2) ∧
    (n1 ≠ n2 → (jsIncludes n1 n2 || jsIncludes n2 n1) = false →
      nameConfidence n1 n2 =
        calculateStringSimilarity n1 n2 * (3 / 5) + wordMatchBonus n1 n2) :=
  ⟨fun h => nameConfidence_exact h,
    fun hne hc => nameConfidence_contains hne hc,
    fun hne hc => nameConfidence_sim hne hc⟩

/-- Witness for C1 (amended) at the containment pair "abc"/"xabc". -/
theorem C1_witness :
    ("abc".toList ≠ "xabc".toList) ∧
    nameConfidence "abc".toList "xabc".toList =
      1 / 2 + wordMatchBonus "abc".toList "xabc".toList :=
  ⟨by decide, (C1_token_bonus "abc".toList "xabc".toList).2.1
    (by decide) (by decide)⟩

theorem wordMatchBonus_empty_api (n1 : List Char) : wordMatchBonus n1 [] = 0 := by
  unfold wordMatchBonus
  have h2 : (tokenize ([] : List Char)).filter (fun w => decide (2 < w.length)) =
      [] := by decide
  rw [h2]
  dsimp only
  simp [List.any_nil]

/-- C10 (implicit): for every mention with a non-empty name and every
candidate whose display name is absent or empty, the scorer's containment
branch fires (every string includes the empty string), so the name-match
contribution is exactly 0.5 rather than 0; with no other signals the public
score is exactly 0.5. -/
theorem C10_empty_name_credit (m : PlaceMention) (c : ApiPlace)
    (city : List Char) (hname : m.name ≠ [])
    (hdn : c.displayName = none ∨ c.displayName = some []) :
    nameConfidence (lowerStr m.name) (lowerStr (extractDisplayName c)) =
      1 / 2 ∧
    (c.formattedAddress = none → c.businessStatus = none → c.rating = none →
      c.userRatingCount = none → city ≠ [] →
      calculateMatchConfidence m c city = 1 / 2) := by
  have hapi : extractDisplayName c = [] := by
    rcases hdn with h | h <;> simp [extractDisplayName, h]
  have hlow : lowerStr (extractDisplayName c) = [] := by
    rw [hapi]
    rfl
  have hm : lowerStr m.name ≠ [] := by
    simp only [lowerStr, ne_eq, List.map_eq_nil_iff]
    exact hname
  have hmain : nameConfidence (lowerStr m.name)
      (lowerStr (extractDisplayName c)) = 1 / 2 := by
    rw [hlow, nameConfidence_contains hm (by simp [jsIncludes]),
      wordMatchBonus_empty_api]
    norm_num
  refine ⟨hmain, fun hfa hbs hr hrc hcity => ?_⟩
  unfold calculateMatchConfidence
  rw [hmain]
  have ha : addressConfidence c city = 0 := by
    unfold addressConfidence
    rw [hfa]
    dsimp only
    rw [if_neg, if_neg (by decide)]
    simp only [jsIncludes, Option.getD_none]
    intro hcon
    rw [decide_eq_true_eq] at hcon
    exact hcity (by simpa [lowerStr, List.map_eq_nil_iff] using
      List.infix_nil.mp hcon)
  have hs : statusConfidence c = 0 := by
    simp [statusConfidence, hbs]
  have hq : qualityConfidence c = 0 := by
    norm_num [qualityConfidence, hr, hrc]
  rw [ha, hs, hq, min_def]
  norm_num

/-- Witness for C10 at mention "abc" and a candidate with no display name
and no other fields. -/
theorem C10_witness :
    ("abc".toList ≠ ([] : List Char)) ∧
    calculateMatchConfidence ⟨"abc".toList⟩
      ⟨none, none, none, none, none, none, none, []⟩ "q".toList = 1 / 2 :=
  ⟨by decide,
    (C10_empty_name_credit ⟨"abc".toList⟩
      ⟨none, none, none, none, none, none, none, []⟩ "q".toList
      (by decide) (Or.inl rfl)).2 rfl rfl rfl rfl (by decide)⟩

theorem confidence_ab_xyz_eq_zero :
    calculateMatchConfidence ⟨"ab".toList⟩
      ⟨some "xyz".toList, none, none, none, none, none, none, []⟩
      "q".toList = 0 := by
  unfold calculateMatchConfidence
  have hl1 : lowerStr ("ab".toList) = "ab".toList := by decide
  have hl2 : lowerStr (extractDisplayName
      ⟨some "xyz".toList, none, none, none, none, none, none, []⟩) =
      "xyz".toList := by decide
  rw [hl1, hl2, nameConfidence_sim (by decide) (by decide)]
  have hsim : calculateStringSimilarity "ab".toList "xyz".toList = 0 := by
    unfold calculateStringSimilarity
    rw [if_neg (by decide), if_neg (by decide), levMatrix_full]
    have h : levenshteinSpec "ab".toList "xyz".toList = 3 := by
      show levenshteinSpec ['a', 'b'] ['x', 'y', 'z'] = 3
      simp [levenshteinSpec_cons_cons, levenshteinSpec_nil_right,
        levenshteinSpec_nil_left]
    rw [h]
    norm_num
  have hbonus : wordMatchBonus "ab".toList "xyz".toList = 0 := by
    unfold wordMatchBonus
    have h1 : (tokenize "ab".toList).filter (fun w => decide (2 < w.length)) =
        [] := by decide
    rw [h1]
    dsimp only
    simp
  have ha : addressConfidence
      ⟨some "xyz".toList, none, none, none, none, none, none, []⟩
      "q".toList = 0 := by
    unfold addressConfidence
    dsimp only
    rw [if_neg (by decide), if_neg (by decide)]
  have hs : statusConfidence
      ⟨some "xyz".toList, none, none, none, none, none, none, []⟩ = 0 := by
    unfold statusConfidence
    rw [if_neg (by decide), if_neg (by decide)]
  have hq : qualityConfidence
      ⟨some "xyz".toList, none, none, none, none, none, none, []⟩ = 0 := by
    norm_num [qualityConfidence]
  rw [hsim, hbonus, ha, hs, hq, min_def]
  norm_num

/-- C3 fails as stated: a non-empty candidate list can still leave
`verifiedPlace` absent.  `findBestMatch` records a candidate only when its
confidence strictly exceeds the running best (initially 0), so when every
candidate scores 0 the best-match place stays null: mention "ab" with the
single returned candidate "xyz" yields `verifiedPlace = none`. -/
theorem C3_counterexample :
    ([(⟨some "xyz".toList, none, none, none, none, none, none, []⟩ :
        ApiPlace)] ≠ []) ∧
    (verifyPlace ⟨"ab".toList⟩ "q".toList
      (.ok [⟨some "xyz".toList, none, none, none, none, none, none, []⟩])).verifiedPlace =
      none := by
  refine ⟨by decide, ?_⟩
  unfold verifyPlace
  dsimp only
  rw [if_neg (by decide)]
  dsimp only
  simp only [findBestMatch, List.foldl_cons, List.foldl_nil]
  rw [confidence_ab_xyz_eq_zero]
  norm_num

/-- C3 (amended): `resolvedCandidate` (`verifiedPlace`) is absent on a
non-success response, a thrown error, or an empty candidate list, and for a
returned candidate list it is present if and only if at least one candidate
scores strictly positive confidence — not simply iff the list is
non-empty. -/
theorem C3_resolved_candidate (m : PlaceMention) (city : List Char) :
    (∀ st txt, (verifyPlace m city (.httpError st txt)).verifiedPlace = none) ∧
    (∀ msg, (verifyPlace m city (.networkError msg)).verifiedPlace = none) ∧
    (∀ cs : List ApiPlace,
      ((verifyPlace m city (.ok cs)).verifiedPlace).isSome = true ↔
        ∃ c ∈ cs, 0 < calculateMatchConfidence m c city) := by
  refine ⟨fun st txt => rfl, fun msg => rfl, fun cs => ?_⟩
  by_cases h : cs.isEmpty
  · have hcs : cs = [] := by
      simpa using h
    subst hcs
    simp [verifyPlace]
  · unfold verifyPlace
    dsimp only
    rw [if_neg h]
    exact findBestMatch_isSome_iff m city cs

/-- C4: for every batch whose mention list is well-formed, the batch call
succeeds (never throws): each mention's outcome is computed independently
from its own search response; every mention whose search failed (non-ok
response, thrown error, or zero results) gets `verified:false`,
`confidence:0` and a failure reason; and the summary's unverified count is
at least the number of such failed mentions. -/
theorem C4_batch_partial_failure (rr : RouteResponse)
    (search : PlaceMention → SearchResponse) (ps : List PlaceMention)
    (hps : rr.places = some ps) :
    (verifyAllPlaces rr search).isSuccess = true ∧
    (verifyAllPlaces rr search).outcomes =
      ps.map (fun p => verifyPlace p rr.city (search p)) ∧
    (∀ p, isSearchFailure (search p) = true →
      (verifyPlace p rr.city (search p)).verified = false ∧
      (verifyPlace p rr.city (search p)).confidence = 0 ∧
      ((verifyPlace p rr.city (search p)).error).isSome = true) ∧
    (ps.filter (fun p => isSearchFailure (search p))).length ≤
      ((verifyAllPlaces rr search).summaryD).unverifiedPlaces := by
  unfold verifyAllPlaces
  rw [hps]
  dsimp only [BatchResult.isSuccess, BatchResult.outcomes, BatchResult.summaryD]
  refine ⟨rfl, rfl, fun p hf => verifyPlace_failure p rr.city (search p) hf, ?_⟩
  have hb := verified_count_bound rr.city search ps
  have hlen : (ps.map (fun p => verifyPlace p rr.city (search p))).length =
      ps.length := List.length_map _ _
  omega

/-- Witness for C4: a two-mention batch where both searches fail (one empty
result list, one HTTP error); the summary counts at least these two
failures as unverified. -/
theorem C4_witness :
    ((⟨some [⟨"a".toList⟩, ⟨"b".toList⟩], "q".toList⟩ :
        RouteResponse).places = some [⟨"a".toList⟩, ⟨"b".toList⟩]) ∧
    (([(⟨"a".toList⟩ : PlaceMention), ⟨"b".toList⟩].filter
        (fun p => isSearchFailure
          (if p.name = "a".toList then SearchResponse.ok []
            else SearchResponse.httpError 500 []))).length ≤
      ((verifyAllPlaces ⟨some [⟨"a".toList⟩, ⟨"b".toList⟩], "q".toList⟩
        (fun p => if p.name = "a".toList then SearchResponse.ok []
          else SearchResponse.httpError 500 [])).summaryD).unverifiedPlaces) :=
  ⟨rfl,
    (C4_batch_partial_failure
      ⟨some [⟨"a".toList⟩, ⟨"b".toList⟩], "q".toList⟩
      (fun p => if p.name = "a".toList then SearchResponse.ok []
        else SearchResponse.httpError 500 [])
      [⟨"a".toList⟩, ⟨"b".toList⟩] rfl).2.2.2⟩

/-- C5 fails as stated: the source computes
`(verifiedCount / totalCount) * 100` with no guard, so a zero-mention batch
performs the division `0 / 0`, whose JS value is `NaN` (modelled as an
absent finite rate). -/
theorem C5_counterexample :
    (verifyAllPlaces ⟨some [], []⟩ (fun _ => .ok [])).isSuccess = true ∧
    ((verifyAllPlaces ⟨some [], []⟩
        (fun _ => .ok [])).summaryD).totalPlaces = 0 ∧
    ((verifyAllPlaces ⟨some [], []⟩
        (fun _ => .ok [])).summaryD).verificationRate = none := by
  refine ⟨rfl, rfl, ?_⟩
  simp [verifyAllPlaces, BatchResult.summaryD, jsDiv]

/-- C5 (amended): for a well-formed batch the summary satisfies
`verificationRate = verifiedCount / total * 100` whenever `total > 0`, but
the division is not guarded: a zero-mention batch yields an undefined
(`NaN`) rate rather than a number. -/
theorem C5_verification_rate (rr : RouteResponse)
    (search : PlaceMention → SearchResponse) (ps : List PlaceMention)
    (hps : rr.places = some ps) :
    (ps = [] →
      ((verifyAllPlaces rr search).summaryD).verificationRate = none) ∧
    (ps ≠ [] →
      ((verifyAllPlaces rr search).summaryD).verificationRate =
        some ((((ps.map (fun p => verifyPlace p rr.city (search p))).filter
            (fun r => r.verified)).length : ℚ) / (ps.length : ℚ) * 100)) := by
  unfold verifyAllPlaces
  rw [hps]
  dsimp only [BatchResult.summaryD]
  constructor
  · intro h
    subst h
    simp [jsDiv]
  · intro h
    have hlen : ((ps.length : ℚ)) ≠ 0 := by
      exact_mod_cast fun hc => h (List.length_eq_zero.mp hc)
    simp only [jsDiv, List.length_map, hlen, if_false, Option.map_some]
    rfl

/-- Witness for C5 (amended): a one-mention batch with an empty search
result has rate `0/1*100`. -/
theorem C5_witness :
    ([(⟨"a".toList⟩ : PlaceMention)] ≠ []) ∧
    ((verifyAllPlaces ⟨some [⟨"a".toList⟩], "q".toList⟩
        (fun _ => .ok [])).summaryD).verificationRate =
      some (((([(⟨"a".toList⟩ : PlaceMention)].map
          (fun p => verifyPlace p "q".toList (SearchResponse.ok []))).filter
          (fun r => r.verified)).length : ℚ) /
        (([(⟨"a".toList⟩ : PlaceMention)].length : ℚ)) * 100) :=
  ⟨by decide,
    (C5_verification_rate ⟨some [⟨"a".toList⟩], "q".toList⟩ (fun _ => .ok [])
      [⟨"a".toList⟩] rfl).2 (by decide)⟩

/-- C7: with at least 3 identifier-bearing stops and a successful response
carrying a permutation of the intermediate indices, the sequencer returns
exactly `[origin, intermediates[p 0], ..., intermediates[p (k-1)],
destination]`. -/
theorem C7_sequenced_order (places : List RoutePlace) (route : RouteData)
    (rest : List RouteData) (perm : List ℕ)
    (hids : 3 ≤ (places.filter (fun p => jsStrTruthy p.place_id)).length)
    (hperm : route.optimizedIntermediateWaypointIndex = some perm)
    (_hrange : ∀ i ∈ perm,
      i < (((places.filter (fun p => jsStrTruthy p.place_id)).drop
        1).dropLast).length) :
    (optimizeRouteOrder places (.ok (route :: rest))).optimized = true ∧
    (optimizeRouteOrder places (.ok (route :: rest))).places =
      (places.filter (fun p => jsStrTruthy p.place_id)).getD 0 default ::
        perm.map (fun i =>
          (((places.filter (fun p => jsStrTruthy p.place_id)).drop
            1).dropLast).getD i default) ++
        [(places.filter (fun p => jsStrTruthy p.place_id)).getD
          ((places.filter (fun p => jsStrTruthy p.place_id)).length - 1)
          default] ∧
    ((optimizeRouteOrder places (.ok (route :: rest))).places).length =
      perm.length + 2 := by
  have hlen : ¬ places.length < 2 := by
    have := List.length_filter_le (fun p => jsStrTruthy p.place_id) places
    omega
  unfold optimizeRouteOrder
  rw [if_neg hlen]
  dsimp only
  rw [if_neg (by omega), if_neg (by omega), hperm]
  refine ⟨rfl, rfl, ?_⟩
  simp

/-- Witness for C7: five identifier-bearing stops, permutation [2,0,1] over
the three intermediates, yielding
`[stop0, stop3, stop1, stop2, stop4]`. -/
theorem C7_witness :
    (3 ≤ ([(⟨some "a".toList, none, none⟩ : RoutePlace),
        ⟨some "b".toList, none, none⟩, ⟨some "c".toList, none, none⟩,
        ⟨some "d".toList, none, none⟩, ⟨some "e".toList, none, none⟩].filter
        (fun p => jsStrTruthy p.place_id)).length) ∧
    (optimizeRouteOrder
      [⟨some "a".toList, none, none⟩, ⟨some "b".toList, none, none⟩,
        ⟨some "c".toList, none, none⟩, ⟨some "d".toList, none, none⟩,
        ⟨some "e".toList, none, none⟩]
      (.ok [⟨some [2, 0, 1]⟩])).places =
      [⟨some "a".toList, none, none⟩, ⟨some "d".toList, none, none⟩,
        ⟨some "b".toList, none, none⟩, ⟨some "c".toList, none, none⟩,
        ⟨some "e".toList, none, none⟩] := by
  refine ⟨by decide, ?_⟩
  have h := (C7_sequenced_order
    [⟨some "a".toList, none, none⟩, ⟨some "b".toList, none, none⟩,
      ⟨some "c".toList, none, none⟩, ⟨some "d".toList, none, none⟩,
      ⟨some "e".toList, none, none⟩]
    ⟨some [2, 0, 1]⟩ [] [2, 0, 1] (by decide) rfl (by decide)).2.1
  exact h.trans (by decide)

/-- C8 fails as stated: with exactly 2 identifier-bearing stops among 3
input stops, the sequencer returns the *filtered* list, dropping the
identifier-less stop, so the returned list is not the input list. -/
theorem C8_counterexample :
    (([(⟨some "a".toList, none, none⟩ : RoutePlace), ⟨none, none, none⟩,
        ⟨some "b".toList, none, none⟩].filter
        (fun p => jsStrTruthy p.place_id)).length < 3) ∧
    (optimizeRouteOrder
      [⟨some "a".toList, none, none⟩, ⟨none, none, none⟩,
        ⟨some "b".toList, none, none⟩] (.ok [])).optimized = false ∧
    (optimizeRouteOrder
      [⟨some "a".toList, none, none⟩, ⟨none, none, none⟩,
        ⟨some "b".toList, none, none⟩] (.ok [])).places ≠
      [⟨some "a".toList, none, none⟩, ⟨none, none, none⟩,
        ⟨some "b".toList, none, none⟩] :=
  ⟨by decide, by decide, by decide⟩

/-- C8 (amended): with fewer than 3 identifier-bearing stops the sequencer
always reports `optimized = false`; it returns the input list unchanged when
the input has fewer than 2 stops or fewer than 2 stops carry an identifier,
but with exactly 2 identifier-bearing stops it returns only those stops (in
input order), dropping identifier-less ones. -/
theorem C8_short_input (places : List RoutePlace) (resp : RoutesResponse)
    (h : (places.filter (fun p => jsStrTruthy p.place_id)).length < 3) :
    (optimizeRouteOrder places resp).optimized = false ∧
    (optimizeRouteOrder places resp).places =
      (if places.length < 2 then places
       else if (places.filter (fun p => jsStrTruthy p.place_id)).length < 2
         then places
       else places.filter (fun p => jsStrTruthy p.place_id)) := by
  unfold optimizeRouteOrder
  by_cases h1 : places.length < 2
  · rw [if_pos h1, if_pos h1]
    exact ⟨rfl, rfl⟩
  · rw [if_neg h1, if_neg h1]
    dsimp only
    by_cases h2 : (places.filter (fun p => jsStrTruthy p.place_id)).length < 2
    · rw [if_pos h2, if_pos h2]
      exact ⟨rfl, rfl⟩
    · rw [if_neg h2, if_neg h2, if_pos (by omega)]
      exact ⟨rfl, rfl⟩

/-- Witness for C8 (amended): a single identifier-less stop is returned
unchanged with `optimized = false`. -/
theorem C8_witness :
    (([(⟨none, none, none⟩ : RoutePlace)].filter
        (fun p => jsStrTruthy p.place_id)).length < 3) ∧
    (optimizeRouteOrder [(⟨none, none, none⟩ : RoutePlace)]
      (.ok [])).optimized = false ∧
    (optimizeRouteOrder [(⟨none, none, none⟩ : RoutePlace)] (.ok [])).places =
      (if [(⟨none, none, none⟩ : RoutePlace)].length < 2 then
        [(⟨none, none, none⟩ : RoutePlace)]
       else if ([(⟨none, none, none⟩ : RoutePlace)].filter
          (fun p => jsStrTruthy p.place_id)).length < 2 then
        [(⟨none, none, none⟩ : RoutePlace)]
       else [(⟨none, none, none⟩ : RoutePlace)].filter
        (fun p => jsStrTruthy p.place_id)) :=
  ⟨by decide,
    (C8_short_input [(⟨none, none, none⟩ : RoutePlace)] (.ok [])
      (by decide)).1,
    (C8_short_input [(⟨none, none, none⟩ : RoutePlace)] (.ok [])
      (by decide)).2⟩

/-- C9: the maps-link generator is a pure function of the stop list and
travel mode (deterministic by construction), it produces a link for every
non-empty stop list, and both the full link and the length-degraded
simplified link contain the origin and destination value fragments — the
degradation never drops them. -/
theorem C9_maps_url (enc : List Char → List Char) (places : List RoutePlace)
    (travelMode : List Char) (h : places ≠ []) :
    ∃ url, generateOptimizedMapsUrl enc places travelMode = some url ∧
      (originSegment enc (places.getD 0 default)) <:+: url ∧
      (destSegment enc (places.getD (places.length - 1) default)) <:+: url := by
  unfold generateOptimizedMapsUrl
  rw [if_neg (by simpa using h)]
  dsimp only
  split_ifs with hlen
  · refine ⟨_, rfl, ?_, ?_⟩
    · exact ⟨"https://www.google.com/maps/dir/?api=1".toList ++
        "&travelmode=".toList ++ modeToGoogle travelMode,
        destSegment enc (places.getD (places.length - 1) default) ++
          utmOptimized,
        by simp [List.append_assoc]⟩
    · exact ⟨"https://www.google.com/maps/dir/?api=1".toList ++
        "&travelmode=".toList ++ modeToGoogle travelMode ++
        originSegment enc (places.getD 0 default),
        utmOptimized,
        by simp [List.append_assoc]⟩
  · refine ⟨_, rfl, ?_, ?_⟩
    · exact ⟨"https://www.google.com/maps/dir/?api=1".toList ++
        "&travelmode=".toList ++ modeToGoogle travelMode,
        destSegment enc (places.getD (places.length - 1) default) ++
          waypointsSegment enc places ++ placeIdsSegment places ++
          utmOptimized,
        by simp [List.append_assoc]⟩
    · exact ⟨"https://www.google.com/maps/dir/?api=1".toList ++
        "&travelmode=".toList ++ modeToGoogle travelMode ++
        originSegment enc (places.getD 0 default),
        waypointsSegment enc places ++ placeIdsSegment places ++
          utmOptimized,
        by simp [List.append_assoc]⟩

/-- Witness for C9: a single stop with an address, identity encoding,
walking mode. -/
theorem C9_witness :
    ([(⟨none, some "x".toList, none⟩ : RoutePlace)] ≠ []) ∧
    ∃ url, generateOptimizedMapsUrl (fun s => s)
        [(⟨none, some "x".toList, none⟩ : RoutePlace)] "WALK".toList =
        some url ∧
      (originSegment (fun s => s)
        ([(⟨none, some "x".toList, none⟩ : RoutePlace)].getD 0 default)) <:+:
        url ∧
      (destSegment (fun s => s)
        ([(⟨none, some "x".toList, none⟩ : RoutePlace)].getD
          ([(⟨none, some "x".toList, none⟩ : RoutePlace)].length - 1)
          default)) <:+: url :=
  ⟨by decide,
    C9_maps_url (fun s => s) [(⟨none, some "x".toList, none⟩ : RoutePlace)]
      "WALK".toList (by decide)⟩

end Amble
